import Mathlib

set_option maxRecDepth 400000

/-!
Verification development for the Sleuth Kit `HashCalcModule` (HashCalcModule.cpp).

The module has two entry points:

* `initialize(std::string& arguments)` — parses the configuration string into
  the two global flags `calculateMD5` / `calculateSHA1`;
* `run(TskFile* pFile)` — streams the file's bytes, 8192 at a time, into a
  Poco `MD5Engine` / `SHA1Engine` through `DigestOutputStream`s, and stores the
  resulting lowercase hex digests with `pFile->setHash`.

The embedding below models the global flag state explicitly (`ConfigState`),
the file collaborator as a record (`TskFile`), and `run` as a function
returning the module status together with the ordered trace of observable
calls (`Event`). The Poco digest engines are external collaborators
implementing standard MD5 (RFC 1321) and SHA-1 (FIPS 180); they are embedded
here as executable streaming implementations so that digest values, chunking
behaviour and finalization are all concrete.
-/

namespace HashCalc

/-! ## 32-bit arithmetic helpers (machine words as `Nat` mod 2^32) -/

/-- 2^32, the word modulus. -/
def w32 : Nat := 4294967296

/-- Addition modulo 2^32. -/
def add32 (a b : Nat) : Nat := (a + b) % w32

/-- Left-rotation of a 32-bit word by `n` (for `x < 2^32`, `n ≤ 32`). -/
def rotl (x n : Nat) : Nat := ((x <<< n) ||| (x >>> (32 - n))) % w32

/-- Bitwise complement of a 32-bit word. -/
def not32 (x : Nat) : Nat := x ^^^ 4294967295

/-- The four bytes of a word, little-endian (low byte first). -/
def leBytes4 (x : Nat) : List Nat := [x % 256, x / 256 % 256, x / 65536 % 256, x / 16777216 % 256]

/-- The eight bytes of a 64-bit value, little-endian. -/
def leBytes8 (x : Nat) : List Nat := leBytes4 (x % w32) ++ leBytes4 (x / w32)

/-- The eight bytes of a 64-bit value, big-endian. -/
def beBytes8 (x : Nat) : List Nat := (leBytes8 x).reverse

/-- Group a byte list into 32-bit words, little-endian; `fuel` bounds the
recursion (pass at least the list length). Incomplete trailing groups are
dropped (never hit: callers pass lists whose length is a multiple of 4). -/
def leWords : Nat → List Nat → List Nat
  | 0, _ => []
  | fuel + 1, b0 :: b1 :: b2 :: b3 :: rest =>
      (b0 + 256 * (b1 + 256 * (b2 + 256 * b3))) :: leWords fuel rest
  | _ + 1, _ => []

/-- Group a byte list into 32-bit words, big-endian; same fuel convention. -/
def beWords : Nat → List Nat → List Nat
  | 0, _ => []
  | fuel + 1, b0 :: b1 :: b2 :: b3 :: rest =>
      (b3 + 256 * (b2 + 256 * (b1 + 256 * b0))) :: beWords fuel rest
  | _ + 1, _ => []

/-- Split a word list into blocks of 16 words; `fuel` bounds the recursion. -/
def wordBlocks : Nat → List Nat → List (List Nat)
  | 0, _ => []
  | fuel + 1, ws => if ws.isEmpty then [] else ws.take 16 :: wordBlocks fuel (ws.drop 16)

/-! ## MD5 (RFC 1321), the algorithm behind `Poco::MD5Engine` -/

/-- The MD5 sine-derived round constants `K[0..63]`. -/
def md5K : List Nat :=
  [0xd76aa478, 0xe8c7b756, 0x242070db, 0xc1bdceee,
   0xf57c0faf, 0x4787c62a, 0xa8304613, 0xfd469501,
   0x698098d8, 0x8b44f7af, 0xffff5bb1, 0x895cd7be,
   0x6b901122, 0xfd987193, 0xa679438e, 0x49b40821,
   0xf61e2562, 0xc040b340, 0x265e5a51, 0xe9b6c7aa,
   0xd62f105d, 0x02441453, 0xd8a1e681, 0xe7d3fbc8,
   0x21e1cde6, 0xc33707d6, 0xf4d50d87, 0x455a14ed,
   0xa9e3e905, 0xfcefa3f8, 0x676f02d9, 0x8d2a4c8a,
   0xfffa3942, 0x8771f681, 0x6d9d6122, 0xfde5380c,
   0xa4beea44, 0x4bdecfa9, 0xf6bb4b60, 0xbebfbc70,
   0x289b7ec6, 0xeaa127fa, 0xd4ef3085, 0x04881d05,
   0xd9d4d039, 0xe6db99e5, 0x1fa27cf8, 0xc4ac5665,
   0xf4292244, 0x432aff97, 0xab9423a7, 0xfc93a039,
   0x655b59c3, 0x8f0ccc92, 0xffeff47d, 0x85845dd1,
   0x6fa87e4f, 0xfe2ce6e0, 0xa3014314, 0x4e0811a1,
   0xf7537e82, 0xbd3af235, 0x2ad7d2bb, 0xeb86d391]

/-- The MD5 per-round left-rotation amounts. -/
def md5S (i : Nat) : Nat :=
  if i < 16 then [7, 12, 17, 22].getD (i % 4) 0
  else if i < 32 then [5, 9, 14, 20].getD (i % 4) 0
  else if i < 48 then [4, 11, 16, 23].getD (i % 4) 0
  else [6, 10, 15, 21].getD (i % 4) 0

/-- A 4-word MD5 chaining value. -/
structure MD5Hash where
  a : Nat
  b : Nat
  c : Nat
  d : Nat

/-- One MD5 round applied to chaining value `h` with message words `m`. -/
def md5Step (m : List Nat) (h : MD5Hash) (i : Nat) : MD5Hash :=
  let f :=
    if i < 16 then (h.b &&& h.c) ||| (not32 h.b &&& h.d)
    else if i < 32 then (h.d &&& h.b) ||| (not32 h.d &&& h.c)
    else if i < 48 then h.b ^^^ h.c ^^^ h.d
    else h.c ^^^ (h.b ||| not32 h.d)
  let g :=
    if i < 16 then i
    else if i < 32 then (5 * i + 1) % 16
    else if i < 48 then (3 * i + 5) % 16
    else (7 * i) % 16
  let bNew := add32 h.b (rotl (add32 (add32 (add32 h.a f) (md5K.getD i 0)) (m.getD g 0)) (md5S i))
  ⟨h.d, bNew, h.b, h.c⟩

/-- MD5 compression: absorb one 16-word block into the chaining value. -/
def md5Compress (h : MD5Hash) (m : List Nat) : MD5Hash :=
  let r := (List.range 64).foldl (md5Step m) h
  ⟨add32 h.a r.a, add32 h.b r.b, add32 h.c r.c, add32 h.d r.d⟩

/-- Streaming MD5 engine state: the pending partial block, the chaining value
and the total byte count, exactly the observable state of `Poco::MD5Engine`. -/
structure MD5State where
  buf : List Nat
  h : MD5Hash
  len : Nat

/-- The MD5 initial chaining value. -/
def md5Init : MD5State := ⟨[], ⟨0x67452301, 0xefcdab89, 0x98badcfe, 0x10325476⟩, 0⟩

/-- Absorb one byte into the streaming state, compressing when a 64-byte block
completes. -/
def md5Absorb (s : MD5State) (byte : Nat) : MD5State :=
  let buf := s.buf ++ [byte]
  if buf.length = 64 then
    ⟨[], md5Compress s.h (leWords buf.length buf), s.len + 1⟩
  else
    ⟨buf, s.h, s.len + 1⟩

/-- Engine update: absorb a sequence of bytes in order. -/
def md5Update (s : MD5State) (bs : List Nat) : MD5State := bs.foldl md5Absorb s

/-- MD5 padding for a message of `len` bytes: `0x80`, zeros to 56 mod 64, then
the bit length as 8 little-endian bytes. -/
def md5PadTail (len : Nat) : List Nat :=
  0x80 :: List.replicate ((119 - len % 64) % 64) 0 ++ leBytes8 (8 * len)

/-- Finalize the streaming state: pad, compress the remaining block(s) and emit
the 16 digest bytes (little-endian per word). -/
def md5FinalBytes (s : MD5State) : List Nat :=
  let tail := s.buf ++ md5PadTail s.len
  let h := (wordBlocks tail.length (leWords tail.length tail)).foldl md5Compress s.h
  leBytes4 h.a ++ leBytes4 h.b ++ leBytes4 h.c ++ leBytes4 h.d

/-! ## Hex rendering, the algorithm of `Poco::DigestEngine::digestToHex` -/

/-- Lowercase hex digit for a value below 16. -/
def hexDigitChar (n : Nat) : Char := Char.ofNat (if n < 10 then 48 + n else 87 + n)

/-- Two lowercase hex digits of one byte, high nibble first. -/
def byteToHex (b : Nat) : List Char := [hexDigitChar (b / 16 % 16), hexDigitChar (b % 16)]

/-- Lowercase hex string of a digest byte sequence. -/
def bytesToHex (bs : List Nat) : String := ⟨bs.foldr (fun b acc => byteToHex b ++ acc) []⟩

/-- MD5 digest of a byte sequence, as a lowercase hex string. -/
def md5Hex (bs : List Nat) : String := bytesToHex (md5FinalBytes (md5Update md5Init bs))

/-! ## SHA-1 (FIPS 180), the algorithm behind `Poco::SHA1Engine` -/

/-- A 5-word SHA-1 chaining value. -/
structure SHA1Hash where
  h0 : Nat
  h1 : Nat
  h2 : Nat
  h3 : Nat
  h4 : Nat

/-- Extend the (reversed) message schedule by `k` more words:
`w[i] = rotl1 (w[i-3] xor w[i-8] xor w[i-14] xor w[i-16])`. -/
def sha1ExtendRev : Nat → List Nat → List Nat
  | 0, ws => ws
  | k + 1, ws =>
      sha1ExtendRev k (rotl (ws.getD 2 0 ^^^ ws.getD 7 0 ^^^ ws.getD 13 0 ^^^ ws.getD 15 0) 1 :: ws)

/-- The 80-word SHA-1 message schedule of a 16-word block. -/
def sha1Schedule (m : List Nat) : List Nat := (sha1ExtendRev 64 m.reverse).reverse

/-- One SHA-1 round with round index `i` and schedule word `w`. -/
def sha1Round (s : SHA1Hash) (i : Nat) (w : Nat) : SHA1Hash :=
  let f :=
    if i < 20 then (s.h1 &&& s.h2) ||| (not32 s.h1 &&& s.h3)
    else if i < 40 then s.h1 ^^^ s.h2 ^^^ s.h3
    else if i < 60 then (s.h1 &&& s.h2) ||| (s.h1 &&& s.h3) ||| (s.h2 &&& s.h3)
    else s.h1 ^^^ s.h2 ^^^ s.h3
  let k :=
    if i < 20 then 0x5a827999
    else if i < 40 then 0x6ed9eba1
    else if i < 60 then 0x8f1bbcdc
    else 0xca62c1d6
  let t := add32 (add32 (add32 (add32 (rotl s.h0 5) f) s.h4) k) w
  ⟨t, s.h0, rotl s.h1 30, s.h2, s.h3⟩

/-- SHA-1 compression: absorb one 16-word block into the chaining value. -/
def sha1Compress (h : SHA1Hash) (m : List Nat) : SHA1Hash :=
  let r := ((sha1Schedule m).foldl (fun p w => (sha1Round p.1 p.2 w, p.2 + 1)) (h, 0)).1
  ⟨add32 h.h0 r.h0, add32 h.h1 r.h1, add32 h.h2 r.h2, add32 h.h3 r.h3, add32 h.h4 r.h4⟩

/-- Streaming SHA-1 engine state, mirroring `Poco::SHA1Engine`. -/
structure SHA1State where
  buf : List Nat
  h : SHA1Hash
  len : Nat

/-- The SHA-1 initial chaining value. -/
def sha1Init : SHA1State :=
  ⟨[], ⟨0x67452301, 0xefcdab89, 0x98badcfe, 0x10325476, 0xc3d2e1f0⟩, 0⟩

/-- Absorb one byte into the streaming SHA-1 state. -/
def sha1Absorb (s : SHA1State) (byte : Nat) : SHA1State :=
  let buf := s.buf ++ [byte]
  if buf.length = 64 then
    ⟨[], sha1Compress s.h (beWords buf.length buf), s.len + 1⟩
  else
    ⟨buf, s.h, s.len + 1⟩

/-- Engine update: absorb a sequence of bytes in order. -/
def sha1Update (s : SHA1State) (bs : List Nat) : SHA1State := bs.foldl sha1Absorb s

/-- SHA-1 padding: like MD5 but with a big-endian bit-length field. -/
def sha1PadTail (len : Nat) : List Nat :=
  0x80 :: List.replicate ((119 - len % 64) % 64) 0 ++ beBytes8 (8 * len)

/-- Finalize the streaming SHA-1 state and emit the 20 digest bytes
(big-endian per word). -/
def sha1FinalBytes (s : SHA1State) : List Nat :=
  let tail := s.buf ++ sha1PadTail s.len
  let h := (wordBlocks tail.length (beWords tail.length tail)).foldl sha1Compress s.h
  (leBytes4 h.h0).reverse ++ (leBytes4 h.h1).reverse ++ (leBytes4 h.h2).reverse ++
    (leBytes4 h.h3).reverse ++ (leBytes4 h.h4).reverse

/-- SHA-1 digest of a byte sequence, as a lowercase hex string. -/
def sha1Hex (bs : List Nat) : String := bytesToHex (sha1FinalBytes (sha1Update sha1Init bs))

/-! ## The module state and `initialize` (HashCalcModule.cpp lines 46-74)

The C++ entry point is spelled `initialize`; that spelling is a Lean keyword,
so the embedding calls it `moduleInit`. -/

/-- `TskModule::Status`. -/
inductive Status where
  | OK
  | FAIL
deriving DecidableEq

/-- The hash tags of `TskImgDB` used by `setHash`. -/
inductive HashType where
  | MD5
  | SHA1
deriving DecidableEq

/-- The module's global flag state: `calculateMD5` and `calculateSHA1`
(HashCalcModule.cpp lines 31-32). -/
structure ConfigState where
  calculateMD5 : Bool
  calculateSHA1 : Bool
deriving DecidableEq

/-- The flags at program start: both `false`. -/
def initialState : ConfigState := ⟨false, false⟩

/-- Substring search, as `std::string::find(needle) != npos`: the needle's
characters occur contiguously somewhere in the haystack. -/
def containsSubstr (hay needle : String) : Bool := decide (needle.toList <:+: hay.toList)

/-- The module's `initialize` function: given the argument string and the
current global flag state, returns the new flag state and the status.
Faithful to lines 46-74: the empty string sets both flags; otherwise each
found substring sets its flag; if after that both flags are still clear the
call fails. The prior flag values are read, never cleared. -/
def moduleInit (arguments : String) (st : ConfigState) : ConfigState × Status :=
  if arguments.isEmpty then (⟨true, true⟩, Status.OK)
  else
    let st1 := if containsSubstr arguments "MD5" then { st with calculateMD5 := true } else st
    let st2 := if containsSubstr arguments "SHA1" then { st1 with calculateSHA1 := true } else st1
    if st2.calculateMD5 = false ∧ st2.calculateSHA1 = false then (st2, Status.FAIL)
    else (st2, Status.OK)

/-- Modelled from the spec: the Algorithm Selector as a pure function of the
configuration string alone (spec 4.1), with no global state. Used to compare
the code's stateful `moduleInit` against the spec's purity claim. -/
def selectorSpec (arguments : String) : ConfigState × Status :=
  if arguments.isEmpty then (⟨true, true⟩, Status.OK)
  else
    let m := containsSubstr arguments "MD5"
    let s := containsSubstr arguments "SHA1"
    if m = false ∧ s = false then (⟨m, s⟩, Status.FAIL) else (⟨m, s⟩, Status.OK)

/-! ## The `run` entry point (HashCalcModule.cpp lines 84-164)

`run` is modelled as a function from the flag state and the (possibly NULL)
file pointer to the returned status together with the ordered trace of
observable calls the module makes: the existence check, engine construction,
each `pFile->read`, each `DigestOutputStream` write, digest finalization,
each `pFile->setHash`, stream closes and `pFile->close`. -/

/-- The file collaborator: whether `exists()` returns true, the byte content,
and whether some `read` call throws a `TskException` (`failOnRead = some k`
makes the k-th read call, 0-based, throw; chunk reads come first, the
end-of-file read last). -/
structure TskFile where
  fileExists : Bool
  content : List Nat
  failOnRead : Option Nat
deriving DecidableEq

/-- One observable call made by `run`, in program order. -/
inductive Event where
  | existsCheck
  | createEngines
  | readCall (n : Nat)
  | md5Write (n : Nat)
  | sha1Write (n : Nat)
  | readExn
  | md5Final
  | sha1Final
  | setHash (t : HashType) (hex : String)
  | md5dosClose
  | sha1dosClose
  | fileClose
deriving DecidableEq

/-- The chunks successive `read` calls return: `FILE_BUFFER_SIZE` (8192)
bytes at a time until the content is exhausted. `fuel` bounds the recursion
(pass at least the content length). -/
def readAll : Nat → List Nat → List (List Nat)
  | 0, _ => []
  | fuel + 1, data =>
      if data.isEmpty then [] else data.take 8192 :: readAll fuel (data.drop 8192)

/-- The state carried through the read loop of `run` (lines 105-118): both
engine states, the `read` flag, and the trace so far. -/
structure LoopState where
  md5 : MD5State
  sha1 : SHA1State
  readAny : Bool
  trace : List Event

/-- One iteration of the read loop of `run`: a `read` returning chunk `c`
(possibly empty, for the final end-of-file read), setting the `read` flag on
a positive count, then the flag-guarded writes into the digest streams. -/
def stepChunk (cfg : ConfigState) (st : LoopState) (c : List Nat) : LoopState :=
  let st1 : LoopState :=
    { st with
      readAny := if 0 < c.length then true else st.readAny
      trace := st.trace ++ [Event.readCall c.length] }
  let st2 : LoopState :=
    if cfg.calculateMD5 then
      { st1 with md5 := md5Update st1.md5 c, trace := st1.trace ++ [Event.md5Write c.length] }
    else st1
  if cfg.calculateSHA1 then
    { st2 with sha1 := sha1Update st2.sha1 c, trace := st2.trace ++ [Event.sha1Write c.length] }
  else st2

/-- What `run` does after the read loop ends normally (lines 120-146 and 163):
on an empty source close the streams and the file and return OK; otherwise
finalize and store each selected digest, close the streams (but not the file)
and return OK. -/
def runAfterLoop (cfg : ConfigState) (st : LoopState) : Status × List Event :=
  if st.readAny = false then
    (Status.OK, st.trace ++ [Event.md5dosClose, Event.sha1dosClose, Event.fileClose])
  else
    let t1 :=
      if cfg.calculateMD5 then
        st.trace ++ [Event.md5Final, Event.setHash HashType.MD5 (bytesToHex (md5FinalBytes st.md5))]
      else st.trace
    let t2 :=
      if cfg.calculateSHA1 then
        t1 ++ [Event.sha1Final, Event.setHash HashType.SHA1 (bytesToHex (sha1FinalBytes st.sha1))]
      else t1
    (Status.OK, t2 ++ [Event.md5dosClose, Event.sha1dosClose])

/-- The `run` entry point. `none` models a NULL `TskFile*`. A thrown
`TskException` (nonexistent path is handled explicitly before any engine is
built; a failing read is modelled by `failOnRead`) is caught by the handlers
at lines 148-161, which log and return FAIL without closing anything. -/
def run (cfg : ConfigState) (pFile : Option TskFile) : Status × List Event :=
  match pFile with
  | none => (Status.FAIL, [])
  | some f =>
    if f.fileExists = false then (Status.FAIL, [Event.existsCheck])
    else
      let chunks := readAll f.content.length f.content
      let st0 : LoopState :=
        ⟨md5Init, sha1Init, false, [Event.existsCheck, Event.createEngines]⟩
      match f.failOnRead with
      | some k =>
        if k ≤ chunks.length then
          let st := (chunks.take k).foldl (stepChunk cfg) st0
          (Status.FAIL, st.trace ++ [Event.readExn])
        else
          runAfterLoop cfg (stepChunk cfg (chunks.foldl (stepChunk cfg) st0) [])
      | none =>
          runAfterLoop cfg (stepChunk cfg (chunks.foldl (stepChunk cfg) st0) [])

/-! ## Derived notions used by the statements -/

/-- Whether an event is a `setHash` store. -/
def isSetHash : Event → Bool
  | Event.setHash _ _ => true
  | _ => false

/-- Whether an event creates, updates or finalizes a digest accumulator. -/
def touchesAccumulator : Event → Bool
  | Event.createEngines => true
  | Event.md5Write _ => true
  | Event.sha1Write _ => true
  | Event.md5Final => true
  | Event.sha1Final => true
  | _ => false

/-- No `setHash` store occurs anywhere in the trace. -/
def noStores (l : List Event) : Bool := l.all (fun e => !(isSetHash e))

/-- MD5 digest obtained by feeding the engine a list of chunks in order, then
finalizing — the digest `run`'s read loop produces when the reads return
exactly these chunks. -/
def md5HexChunks (chunks : List (List Nat)) : String :=
  bytesToHex (md5FinalBytes (chunks.foldl md5Update md5Init))

/-- SHA-1 digest obtained by feeding the engine a list of chunks in order. -/
def sha1HexChunks (chunks : List (List Nat)) : String :=
  bytesToHex (sha1FinalBytes (chunks.foldl sha1Update sha1Init))

/-- Whether a character is a lowercase hex digit. -/
def isLowerHexChar (c : Char) : Bool := "0123456789abcdef".toList.contains c

/-! ## Helper lemmas -/

theorem md5Update_append (st : MD5State) (a b : List Nat) :
    md5Update st (a ++ b) = md5Update (md5Update st a) b := by
  simp [md5Update, List.foldl_append]

theorem sha1Update_append (st : SHA1State) (a b : List Nat) :
    sha1Update st (a ++ b) = sha1Update (sha1Update st a) b := by
  simp [sha1Update, List.foldl_append]

theorem foldl_md5Update_flatten (chunks : List (List Nat)) :
    ∀ st : MD5State, chunks.foldl md5Update st = md5Update st chunks.flatten := by
  induction chunks with
  | nil => intro st; simp [md5Update]
  | cons c cs ih =>
      intro st
      simp only [List.foldl_cons, List.flatten_cons]
      rw [ih, md5Update_append]

theorem foldl_sha1Update_flatten (chunks : List (List Nat)) :
    ∀ st : SHA1State, chunks.foldl sha1Update st = sha1Update st chunks.flatten := by
  induction chunks with
  | nil => intro st; simp [sha1Update]
  | cons c cs ih =>
      intro st
      simp only [List.foldl_cons, List.flatten_cons]
      rw [ih, sha1Update_append]

theorem readAll_flatten :
    ∀ (fuel : Nat) (data : List Nat), data.length ≤ fuel → (readAll fuel data).flatten = data := by
  intro fuel
  induction fuel with
  | zero =>
      intro data h
      have : data = [] := List.eq_nil_of_length_eq_zero (Nat.le_zero.mp h)
      subst this
      simp [readAll]
  | succ n ih =>
      intro data h
      cases data with
      | nil => simp [readAll]
      | cons x xs =>
          rw [show readAll (n + 1) (x :: xs)
                = (x :: xs).take 8192 :: readAll n ((x :: xs).drop 8192) from rfl]
          rw [List.flatten_cons,
            ih ((x :: xs).drop 8192) (by rw [List.length_drop]; simp at h ⊢; omega),
            List.take_append_drop]

theorem noStores_spec {l : List Event} (h : noStores l = true) (t : HashType) (s : String) :
    Event.setHash t s ∉ l := by
  intro hmem
  have := (List.all_eq_true.mp h) _ hmem
  simp [isSetHash] at this

theorem stepChunk_noStores (cfg : ConfigState) (st : LoopState) (c : List Nat) :
    noStores (stepChunk cfg st c).trace = noStores st.trace := by
  rcases cfg with ⟨m, s⟩
  cases m <;> cases s <;>
    simp [stepChunk, noStores, List.all_append, isSetHash]

theorem foldl_stepChunk_noStores (cfg : ConfigState) (chunks : List (List Nat)) :
    ∀ st : LoopState,
      noStores ((chunks.foldl (stepChunk cfg) st).trace) = noStores st.trace := by
  induction chunks with
  | nil => intro st; rfl
  | cons c cs ih =>
      intro st
      simp only [List.foldl_cons]
      rw [ih, stepChunk_noStores]

theorem stepChunk_readAny_of_readAny (cfg : ConfigState) (st : LoopState) (c : List Nat)
    (h : st.readAny = true) : (stepChunk cfg st c).readAny = true := by
  rcases cfg with ⟨m, s⟩
  cases m <;> cases s <;> simp [stepChunk, h]

theorem stepChunk_readAny_of_pos (cfg : ConfigState) (st : LoopState) (c : List Nat)
    (h : 0 < c.length) : (stepChunk cfg st c).readAny = true := by
  rcases cfg with ⟨m, s⟩
  cases m <;> cases s <;> simp [stepChunk, h]

theorem foldl_stepChunk_readAny (cfg : ConfigState) (chunks : List (List Nat)) :
    ∀ st : LoopState, st.readAny = true →
      (chunks.foldl (stepChunk cfg) st).readAny = true := by
  induction chunks with
  | nil => intro st h; exact h
  | cons c cs ih =>
      intro st h
      simp only [List.foldl_cons]
      exact ih _ (stepChunk_readAny_of_readAny cfg st c h)

/-! ## The claims -/

/-- C4: from the initial flag state, a non-empty configuration string that
contains neither "MD5" nor "SHA1" as a substring makes the module's
initialization return FAIL and leaves no algorithm selected. -/
theorem c4_invalid_configuration_fails (args : String)
    (h1 : args.isEmpty = false)
    (h2 : containsSubstr args "MD5" = false)
    (h3 : containsSubstr args "SHA1" = false) :
    moduleInit args initialState = (initialState, Status.FAIL) := by
  simp [moduleInit, h1, h2, h3, initialState]

/-- Witness for C4 at the configuration string "XYZ". -/
theorem c4_invalid_configuration_fails_witness :
    ("XYZ".isEmpty = false ∧ containsSubstr "XYZ" "MD5" = false ∧
      containsSubstr "XYZ" "SHA1" = false) ∧
    moduleInit "XYZ" initialState = (initialState, Status.FAIL) :=
  ⟨⟨by decide, by decide, by decide⟩,
    c4_invalid_configuration_fails "XYZ" (by decide) (by decide) (by decide)⟩

/-- C7: from the initial flag state, the empty configuration string selects
both algorithms and initialization succeeds. -/
theorem c7_empty_configuration_selects_both :
    moduleInit "" initialState = (⟨true, true⟩, Status.OK) := by
  decide

/-- C10: a NULL file pointer makes `run` return FAIL with an empty trace: no
existence check, no read, no accumulator activity, no stored hash. -/
theorem c10_null_file_pointer (cfg : ConfigState) :
    run cfg none = (Status.FAIL, []) := rfl

/-- C9 counterexample: the module's initialization is not pure. With the same
argument "XYZ" it returns FAIL from the initial flag state but OK when a
previous call has left `calculateMD5` set, because the global flags are read
and never cleared. -/
theorem c9_counterexample_state_leak :
    (moduleInit "XYZ" ⟨true, false⟩).2 = Status.OK ∧
    (moduleInit "XYZ" initialState).2 = Status.FAIL ∧
    moduleInit "XYZ" ⟨true, false⟩ ≠ moduleInit "XYZ" initialState := by
  decide

/-- C9 amended: the outcome of the module's initialization depends on the
configuration string together with the prior global flag state. From the
initial state it agrees with the spec's pure selector of the string alone,
and in general it only ever sets flags, never clears them. -/
theorem c9_selector_pure_from_initial_state (args : String) (st : ConfigState) :
    moduleInit args initialState = selectorSpec args ∧
    st.calculateMD5 ≤ (moduleInit args st).1.calculateMD5 ∧
    st.calculateSHA1 ≤ (moduleInit args st).1.calculateSHA1 := by
  rcases st with ⟨m0, s0⟩
  cases he : args.isEmpty <;> cases hm : containsSubstr args "MD5" <;>
    cases hs : containsSubstr args "SHA1" <;> cases m0 <;> cases s0 <;>
      simp [moduleInit, selectorSpec, initialState, he, hm, hs]

/-- C8: when the source does not exist, `run` fails right after the existence
check: the trace is exactly the existence check, so no engine is created, no
read or write happens, nothing is finalized and no hash is stored. -/
theorem c8_source_not_found (cfg : ConfigState) (f : TskFile)
    (h : f.fileExists = false) :
    run cfg (some f) = (Status.FAIL, [Event.existsCheck]) ∧
    (run cfg (some f)).2.all (fun e => !(touchesAccumulator e) && !(isSetHash e)) = true := by
  have hrun : run cfg (some f) = (Status.FAIL, [Event.existsCheck]) := by
    rcases f with ⟨fe, co, fr⟩
    have hfe : fe = false := h
    subst hfe
    simp [run]
  exact ⟨hrun, by rw [hrun]; decide⟩

/-- Witness for C8 at a nonexistent one-byte source with both flags set. -/
theorem c8_source_not_found_witness :
    (TskFile.mk false [1] none).fileExists = false ∧
    (run ⟨true, true⟩ (some ⟨false, [1], none⟩) = (Status.FAIL, [Event.existsCheck]) ∧
      (run ⟨true, true⟩ (some ⟨false, [1], none⟩)).2.all
        (fun e => !(touchesAccumulator e) && !(isSetHash e)) = true) :=
  ⟨rfl, c8_source_not_found ⟨true, true⟩ ⟨false, [1], none⟩ rfl⟩

/-- C3: an existing source that yields zero bytes makes `run` return OK while
storing nothing: no `setHash` occurs at all, neither digest is finalized, and
in particular neither the MD5 nor the SHA1 digest of the empty string is
stored. -/
theorem c3_empty_source (cfg : ConfigState) (f : TskFile)
    (h1 : f.fileExists = true) (h2 : f.content = []) (h3 : f.failOnRead = none) :
    (run cfg (some f)).1 = Status.OK ∧
    noStores (run cfg (some f)).2 = true ∧
    Event.md5Final ∉ (run cfg (some f)).2 ∧
    Event.sha1Final ∉ (run cfg (some f)).2 ∧
    Event.setHash HashType.MD5 (md5Hex []) ∉ (run cfg (some f)).2 ∧
    Event.setHash HashType.SHA1 (sha1Hex []) ∉ (run cfg (some f)).2 := by
  have hf : f = ⟨true, [], none⟩ := by
    rcases f with ⟨fe, co, fr⟩
    simp only [TskFile.mk.injEq]
    exact ⟨h1, h2, h3⟩
  subst hf
  rcases cfg with ⟨m, s⟩
  cases m <;> cases s <;> decide

/-- Witness for C3 at an existing empty source with both flags set. -/
theorem c3_empty_source_witness :
    ((TskFile.mk true [] none).fileExists = true ∧
      (TskFile.mk true [] none).content = [] ∧
      (TskFile.mk true [] none).failOnRead = none) ∧
    ((run ⟨true, true⟩ (some ⟨true, [], none⟩)).1 = Status.OK ∧
      noStores (run ⟨true, true⟩ (some ⟨true, [], none⟩)).2 = true ∧
      Event.md5Final ∉ (run ⟨true, true⟩ (some ⟨true, [], none⟩)).2 ∧
      Event.sha1Final ∉ (run ⟨true, true⟩ (some ⟨true, [], none⟩)).2 ∧
      Event.setHash HashType.MD5 (md5Hex []) ∉ (run ⟨true, true⟩ (some ⟨true, [], none⟩)).2 ∧
      Event.setHash HashType.SHA1 (sha1Hex []) ∉ (run ⟨true, true⟩ (some ⟨true, [], none⟩)).2) :=
  ⟨⟨rfl, rfl, rfl⟩, c3_empty_source ⟨true, true⟩ ⟨true, [], none⟩ rfl rfl rfl⟩

/-- C1 (diagnosis): the source is closed only on the empty-source path. On the
successful non-empty path `run` returns OK having closed the digest streams
but never the file, and on an exception path nothing is closed either; only
the empty source gets `pFile->close()`. -/
theorem c1_source_not_closed_on_success :
    (run ⟨true, true⟩ (some ⟨true, [97, 98, 99], none⟩)).1 = Status.OK ∧
    Event.fileClose ∉ (run ⟨true, true⟩ (some ⟨true, [97, 98, 99], none⟩)).2 ∧
    Event.fileClose ∈ (run ⟨true, true⟩ (some ⟨true, [], none⟩)).2 ∧
    (run ⟨true, true⟩ (some ⟨true, [97, 98, 99], some 0⟩)).1 = Status.FAIL ∧
    Event.fileClose ∉ (run ⟨true, true⟩ (some ⟨true, [97, 98, 99], some 0⟩)).2 := by
  decide

/-- C2 counterexample: the digest the code stores for SHA1 of "abc" is not
the spec's string "a9993e364706816aba3e25717850c26c9cd0d89", which is 39
characters and hence also contradicts the claimed fixed width of 40. -/
theorem c2_counterexample_sha1_vector :
    "a9993e364706816aba3e25717850c26c9cd0d89".length ≠ 40 ∧
    Event.setHash HashType.SHA1 "a9993e364706816aba3e25717850c26c9cd0d89"
      ∉ (run ⟨true, true⟩ (some ⟨true, [97, 98, 99], none⟩)).2 := by
  decide

/-- C2 amended: on the byte source "abc" with both algorithms selected, `run`
stores MD5 "900150983cd24fb0d6963f7d28e17f72" and SHA1
"a9993e364706816aba3e25717850c26c9cd0d89d", lowercase hex of widths 32 and
40. -/
theorem c2_abc_known_vectors :
    Event.setHash HashType.MD5 "900150983cd24fb0d6963f7d28e17f72"
      ∈ (run ⟨true, true⟩ (some ⟨true, [97, 98, 99], none⟩)).2 ∧
    Event.setHash HashType.SHA1 "a9993e364706816aba3e25717850c26c9cd0d89d"
      ∈ (run ⟨true, true⟩ (some ⟨true, [97, 98, 99], none⟩)).2 ∧
    "900150983cd24fb0d6963f7d28e17f72".length = 32 ∧
    "a9993e364706816aba3e25717850c26c9cd0d89d".length = 40 ∧
    "900150983cd24fb0d6963f7d28e17f72".toList.all isLowerHexChar = true ∧
    "a9993e364706816aba3e25717850c26c9cd0d89d".toList.all isLowerHexChar = true := by
  decide

/-- C5: feeding an engine any chunk partition of a byte sequence yields the
same digest as feeding the sequence whole; in particular the 8192-byte chunks
the read loop uses give the same digest. -/
theorem c5_chunking_invariance (data : List Nat) (chunks : List (List Nat))
    (hflat : chunks.flatten = data) (hpos : ∀ c ∈ chunks, c ≠ []) (hdata : data ≠ []) :
    md5HexChunks chunks = md5Hex data ∧
    sha1HexChunks chunks = sha1Hex data ∧
    md5HexChunks (readAll data.length data) = md5Hex data ∧
    sha1HexChunks (readAll data.length data) = sha1Hex data := by
  refine ⟨?_, ?_, ?_, ?_⟩
  · simp only [md5HexChunks, md5Hex]
    rw [foldl_md5Update_flatten, hflat]
  · simp only [sha1HexChunks, sha1Hex]
    rw [foldl_sha1Update_flatten, hflat]
  · simp only [md5HexChunks, md5Hex]
    rw [foldl_md5Update_flatten, readAll_flatten data.length data (le_refl _)]
  · simp only [sha1HexChunks, sha1Hex]
    rw [foldl_sha1Update_flatten, readAll_flatten data.length data (le_refl _)]

/-- Witness for C5 at the partition [[0x61], [0x62, 0x63]] of "abc". -/
theorem c5_chunking_invariance_witness :
    (([[97], [98, 99]] : List (List Nat)).flatten = [97, 98, 99] ∧
      (∀ c ∈ ([[97], [98, 99]] : List (List Nat)), c ≠ []) ∧
      ([97, 98, 99] : List Nat) ≠ []) ∧
    (md5HexChunks [[97], [98, 99]] = md5Hex [97, 98, 99] ∧
      sha1HexChunks [[97], [98, 99]] = sha1Hex [97, 98, 99] ∧
      md5HexChunks (readAll ([97, 98, 99] : List Nat).length [97, 98, 99]) = md5Hex [97, 98, 99] ∧
      sha1HexChunks (readAll ([97, 98, 99] : List Nat).length [97, 98, 99]) = sha1Hex [97, 98, 99]) :=
  ⟨⟨by decide, by decide, by decide⟩,
    c5_chunking_invariance [97, 98, 99] [[97], [98, 99]] (by decide) (by decide) (by decide)⟩

theorem runAfterLoop_sha1_only (st : LoopState) (h : st.readAny = true) :
    runAfterLoop ⟨false, true⟩ st
      = (Status.OK, st.trace ++ [Event.sha1Final,
          Event.setHash HashType.SHA1 (bytesToHex (sha1FinalBytes st.sha1)),
          Event.md5dosClose, Event.sha1dosClose]) := by
  simp [runAfterLoop, h]

theorem runAfterLoop_sha1_entry (st : LoopState) (h : st.readAny = true)
    (hst : noStores st.trace = true) :
    (∃ s, Event.setHash HashType.SHA1 s ∈ (runAfterLoop ⟨false, true⟩ st).2) ∧
    ∀ s, Event.setHash HashType.MD5 s ∉ (runAfterLoop ⟨false, true⟩ st).2 := by
  rw [runAfterLoop_sha1_only st h]
  constructor
  · exact ⟨bytesToHex (sha1FinalBytes st.sha1), by simp⟩
  · intro s hmem
    simp only [List.mem_append, List.mem_cons, List.not_mem_nil, or_false] at hmem
    rcases hmem with hmem | hmem | hmem | hmem | hmem
    · exact noStores_spec hst _ _ hmem
    · exact Event.noConfusion hmem
    · simp at hmem
    · exact Event.noConfusion hmem
    · exact Event.noConfusion hmem

/-- C6: initialization with "SHA1" from the initial state selects only SHA1,
and a subsequent `run` over any existing non-empty source stores a SHA1 entry
and no MD5 entry. -/
theorem c6_sha1_only_configuration :
    moduleInit "SHA1" initialState = (⟨false, true⟩, Status.OK) ∧
    ∀ f : TskFile, f.fileExists = true → f.content ≠ [] → f.failOnRead = none →
      (∃ s, Event.setHash HashType.SHA1 s ∈ (run ⟨false, true⟩ (some f)).2) ∧
      ∀ s, Event.setHash HashType.MD5 s ∉ (run ⟨false, true⟩ (some f)).2 := by
  refine ⟨by decide, ?_⟩
  intro f h1 h2 h3
  obtain ⟨x, xs, hco⟩ : ∃ x xs, f.content = x :: xs := by
    cases hc : f.content with
    | nil => exact absurd hc h2
    | cons x xs => exact ⟨x, xs, rfl⟩
  have hf : f = ⟨true, x :: xs, none⟩ := by
    rcases f with ⟨fe, co, fr⟩
    simp only [TskFile.mk.injEq]
    exact ⟨h1, hco, h3⟩
  subst hf
  have hrun : run ⟨false, true⟩ (some ⟨true, x :: xs, none⟩)
      = runAfterLoop ⟨false, true⟩
          (stepChunk ⟨false, true⟩
            ((readAll (x :: xs).length (x :: xs)).foldl (stepChunk ⟨false, true⟩)
              ⟨md5Init, sha1Init, false, [Event.existsCheck, Event.createEngines]⟩) []) := rfl
  have hchunks : readAll (x :: xs).length (x :: xs)
      = (x :: xs).take 8192 :: readAll xs.length ((x :: xs).drop 8192) := rfl
  have hreadAny : (stepChunk ⟨false, true⟩
      ((readAll (x :: xs).length (x :: xs)).foldl (stepChunk ⟨false, true⟩)
        ⟨md5Init, sha1Init, false, [Event.existsCheck, Event.createEngines]⟩) []).readAny
      = true := by
    apply stepChunk_readAny_of_readAny
    rw [hchunks, List.foldl_cons]
    apply foldl_stepChunk_readAny
    apply stepChunk_readAny_of_pos
    simp
  have hstores : noStores (stepChunk ⟨false, true⟩
      ((readAll (x :: xs).length (x :: xs)).foldl (stepChunk ⟨false, true⟩)
        ⟨md5Init, sha1Init, false, [Event.existsCheck, Event.createEngines]⟩) []).trace
      = true := by
    rw [stepChunk_noStores, foldl_stepChunk_noStores]
    rfl
  rw [hrun]
  exact runAfterLoop_sha1_entry _ hreadAny hstores

/-- Witness for C6 at the three-byte source "abc". -/
theorem c6_sha1_only_configuration_witness :
    ((TskFile.mk true [97, 98, 99] none).fileExists = true ∧
      (TskFile.mk true [97, 98, 99] none).content ≠ [] ∧
      (TskFile.mk true [97, 98, 99] none).failOnRead = none) ∧
    ((∃ s, Event.setHash HashType.SHA1 s
        ∈ (run ⟨false, true⟩ (some ⟨true, [97, 98, 99], none⟩)).2) ∧
      ∀ s, Event.setHash HashType.MD5 s
        ∉ (run ⟨false, true⟩ (some ⟨true, [97, 98, 99], none⟩)).2) :=
  ⟨⟨rfl, by decide, rfl⟩,
    (c6_sha1_only_configuration.2 ⟨true, [97, 98, 99], none⟩ rfl (by decide) rfl)⟩

end HashCalc
